import Mathlib

/-!
Verification development for the JobOps backend (`jobops/jobs`): a shallow
embedding of the job/task lifecycle, equipment-requirement ledger, overdue
sweep and technician dashboard, with theorems settling the specified
properties against the embedded code.

Timestamps are modelled as minutes since an arbitrary epoch (`DateTime`);
`dateOf` extracts the calendar-day component that the dashboard compares
against `date.today()`.
-/

set_option maxHeartbeats 1000000

namespace JobOps

abbrev DateTime := Nat

/-- Date component of a timestamp (1440 minutes per day). -/
def dateOf (t : DateTime) : Nat := t / 1440

/-- `User.ROLE_CHOICES` from `jobs/models.py`. -/
inductive Role
  | ADMIN
  | TECHNICIAN
  | SALES_AGENT
deriving DecidableEq, Repr

/-- `Job.STATUS_CHOICES` from `jobs/models.py`. -/
inductive JobStatus
  | PENDING
  | IN_PROGRESS
  | COMPLETED
  | CANCELLED
deriving DecidableEq, Repr

/-- `Job.PRIORITY_CHOICES` from `jobs/models.py`. -/
inductive Priority
  | LOW
  | MEDIUM
  | HIGH
  | URGENT
deriving DecidableEq, Repr

/-- `JobTask.STATUS_CHOICES` from `jobs/models.py`. -/
inductive TaskStatus
  | NOT_STARTED
  | IN_PROGRESS
  | COMPLETED
deriving DecidableEq, Repr

/-- The caller identity consumed from the authentication layer: id, role and
the `is_authenticated` flag checked by the permission classes. -/
structure User where
  id : Nat
  role : Role
  is_authenticated : Bool
deriving DecidableEq, Repr

/-- The `Job` model (`jobs/models.py`): `scheduled_date` is nullable,
`assigned_to` references a user id, `overdue` is the cached flag maintained
by the sweep. -/
structure Job where
  id : Nat
  title : String
  description : String
  client_name : String
  scheduled_date : Option DateTime
  status : JobStatus
  priority : Priority
  created_by : Nat
  assigned_to : Nat
  overdue : Bool
deriving DecidableEq, Repr

/-- The `JobTask` model (`jobs/models.py`): `completed_at` is nullable,
`job` references the parent job id. -/
structure JobTask where
  id : Nat
  title : String
  description : String
  order : Nat
  completed_at : Option DateTime
  status : TaskStatus
  job : Nat
deriving DecidableEq, Repr

/-- The `Equipment` model (`jobs/models.py`). -/
structure Equipment where
  id : Nat
  name : String
  eq_type : String
  serial_number : String
  is_active : Bool
deriving DecidableEq, Repr

/-- The `JobTaskEquipment` model (`jobs/models.py`): join of a task and an
equipment item; `quantity` is a Django `PositiveIntegerField` (range 0 to
2147483647). -/
structure JobTaskEquipment where
  job_task : Nat
  equipment_id : Nat
  quantity : Nat
  notes : String
deriving DecidableEq, Repr

/-- `get_object_or_404(Job, id=job_id)` resolution over the store. -/
def findJob (jobs : List Job) (job_id : Nat) : Option Job :=
  jobs.find? (fun j => j.id == job_id)

/-- `get_object_or_404(JobTask, id=task_id)` resolution over the store. -/
def findTask (tasks : List JobTask) (task_id : Nat) : Option JobTask :=
  tasks.find? (fun t => t.id == task_id)

/-- Foreign-key resolution `req.equipment` over the catalog. -/
def findEquipment (es : List Equipment) (equipment_id : Nat) : Option Equipment :=
  es.find? (fun e => e.id == equipment_id)

/-! ### Overdue sweep (`jobs/tasks.py`, `check_overdue_jobs`) -/

/-- `scheduled_date__lt=now`: SQL comparison; a NULL `scheduled_date` never
matches. -/
def scheduledBefore (now : DateTime) (j : Job) : Bool :=
  match j.scheduled_date with
  | some d => d < now
  | none => false

/-- `status__in=['PENDING', 'IN_PROGRESS']`. -/
def jobStatusActive (s : JobStatus) : Bool :=
  match s with
  | .PENDING => true
  | .IN_PROGRESS => true
  | _ => false

/-- Filter of the first pass of `check_overdue_jobs`: jobs to mark overdue. -/
def markMatch (now : DateTime) (j : Job) : Bool :=
  scheduledBefore now j && jobStatusActive j.status && !j.overdue

/-- Filter of the second pass: `overdue=True` rows excluding those where both
`scheduled_date < now` and the active-status filter hold. -/
def clearMatch (now : DateTime) (j : Job) : Bool :=
  j.overdue && !(scheduledBefore now j && jobStatusActive j.status)

/-- `overdue_jobs.update(overdue=True)`: one atomic bulk update, returning
the updated row count. -/
def markPass (now : DateTime) (jobs : List Job) : List Job × Nat :=
  (jobs.map (fun j => if markMatch now j then { j with overdue := true } else j),
   (jobs.filter (markMatch now)).length)

/-- `not_overdue_jobs.update(overdue=False)`: one atomic bulk update,
returning the updated row count. -/
def clearPass (now : DateTime) (jobs : List Job) : List Job × Nat :=
  (jobs.map (fun j => if clearMatch now j then { j with overdue := false } else j),
   (jobs.filter (clearMatch now)).length)

/-- The return value of `check_overdue_jobs`. -/
structure SweepReport where
  marked_overdue : Nat
  cleared_overdue : Nat
  timestamp : DateTime
deriving DecidableEq, Repr

/-- `check_overdue_jobs` from `jobs/tasks.py`: mark pass then clear pass,
with the observability counts. -/
def check_overdue_jobs (now : DateTime) (jobs : List Job) :
    List Job × SweepReport :=
  let m := markPass now jobs
  let c := clearPass now m.fst
  (c.fst, ⟨m.snd, c.snd, now⟩)

/-- The net effect of one sweep on a single job row. -/
def sweepFix (now : DateTime) (j : Job) : Job :=
  { j with overdue := scheduledBefore now j && jobStatusActive j.status }

theorem sweepFix_pointwise (now : DateTime) (j : Job) :
    (let j1 := if markMatch now j then { j with overdue := true } else j
     if clearMatch now j1 then { j1 with overdue := false } else j1)
      = sweepFix now j := by
  cases j with
  | mk id title description client_name scheduled_date status priority
      created_by assigned_to overdue =>
    simp only [markMatch, clearMatch, sweepFix]
    cases hs : scheduledBefore now
        (Job.mk id title description client_name scheduled_date status priority
          created_by assigned_to overdue) <;>
      cases ha : jobStatusActive status <;> cases overdue <;>
        simp_all [scheduledBefore]

theorem check_overdue_jobs_fst (now : DateTime) (jobs : List Job) :
    (check_overdue_jobs now jobs).fst = jobs.map (sweepFix now) := by
  simp only [check_overdue_jobs, markPass, clearPass, List.map_map]
  apply List.map_congr_left
  intro j _
  simpa using sweepFix_pointwise now j

theorem sweepFix_overdue (now : DateTime) (j : Job) :
    (sweepFix now j).overdue = (scheduledBefore now j && jobStatusActive j.status) := by
  rfl

theorem markMatch_sweepFix (now : DateTime) (j : Job) :
    markMatch now (sweepFix now j) = false := by
  cases j with
  | mk id title description client_name scheduled_date status priority
      created_by assigned_to overdue =>
    simp [markMatch, sweepFix, scheduledBefore]

theorem clearMatch_sweepFix (now : DateTime) (j : Job) :
    clearMatch now (sweepFix now j) = false := by
  cases j with
  | mk id title description client_name scheduled_date status priority
      created_by assigned_to overdue =>
    simp [clearMatch, sweepFix, scheduledBefore]

theorem sweepFix_idem (now : DateTime) (j : Job) :
    sweepFix now (sweepFix now j) = sweepFix now j := by
  cases j with
  | mk id title description client_name scheduled_date status priority
      created_by assigned_to overdue =>
    simp [sweepFix, scheduledBefore]

theorem overdue_pred_iff (now : DateTime) (j : Job) :
    (scheduledBefore now j && jobStatusActive j.status) = true ↔
      ∃ d, j.scheduled_date = some d ∧ d < now ∧
        (j.status = JobStatus.PENDING ∨ j.status = JobStatus.IN_PROGRESS) := by
  cases hd : j.scheduled_date <;> cases hs : j.status <;>
    simp [scheduledBefore, jobStatusActive, hd, hs]

theorem filter_length_zero {α : Type} (p : α → Bool) (l : List α)
    (h : ∀ a ∈ l, p a = false) : (l.filter p).length = 0 := by
  induction l with
  | nil => rfl
  | cons x xs ih =>
    rw [List.filter_cons, h x (List.mem_cons_self x xs)]
    exact ih (fun a ha => h a (List.mem_cons_of_mem x ha))

theorem map_if_id {α : Type} (p : α → Bool) (f : α → α) (l : List α)
    (h : ∀ a ∈ l, p a = false) :
    l.map (fun a => if p a then f a else a) = l := by
  induction l with
  | nil => rfl
  | cons x xs ih =>
    have hx := h x (List.mem_cons_self x xs)
    have ih2 := ih (fun a ha => h a (List.mem_cons_of_mem x ha))
    simp [hx, ih2]

theorem mark_clear_pointwise_disjoint (now : DateTime) (j : Job) :
    ¬(markMatch now j = true ∧ clearMatch now j = true) := by
  cases h : j.overdue <;> simp [markMatch, clearMatch, h]

theorem clear_then_mark_pointwise (now : DateTime) (j : Job) :
    (let j1 := if clearMatch now j then { j with overdue := false } else j
     if markMatch now j1 then { j1 with overdue := true } else j1)
      = sweepFix now j := by
  cases j with
  | mk id title description client_name scheduled_date status priority
      created_by assigned_to overdue =>
    simp only [markMatch, clearMatch, sweepFix]
    cases hs : scheduledBefore now
        (Job.mk id title description client_name scheduled_date status priority
          created_by assigned_to overdue) <;>
      cases ha : jobStatusActive status <;> cases overdue <;>
        simp_all [scheduledBefore]

/-- C3: after one run of the overdue sweep at time `now`, every job in the
store has `overdue = true` exactly when its `scheduled_date` is non-null and
earlier than `now` and its status is PENDING or IN_PROGRESS; the resulting
store is the pointwise recomputation of the flag, so a past-scheduled PENDING
job with `overdue = false` becomes `true` and a COMPLETED job with
`overdue = true` is cleared to `false`. -/
theorem sweep_overdue_iff (now : DateTime) (jobs : List Job) :
    (check_overdue_jobs now jobs).fst = jobs.map (sweepFix now)
    ∧ ∀ j ∈ (check_overdue_jobs now jobs).fst,
        (j.overdue = true ↔ ∃ d, j.scheduled_date = some d ∧ d < now ∧
          (j.status = JobStatus.PENDING ∨ j.status = JobStatus.IN_PROGRESS)) := by
  refine ⟨check_overdue_jobs_fst now jobs, ?_⟩
  intro j hj
  rw [check_overdue_jobs_fst] at hj
  rcases List.mem_map.mp hj with ⟨j0, _, rfl⟩
  rw [sweepFix_overdue]
  exact overdue_pred_iff now j0

def wJobPast : Job :=
  ⟨1, "fix heater", "", "acme", some 100, JobStatus.PENDING, Priority.MEDIUM, 0, 2, false⟩

def wJobDone : Job :=
  ⟨2, "install unit", "", "acme", some 100, JobStatus.COMPLETED, Priority.MEDIUM, 0, 2, true⟩

theorem sweep_overdue_iff_witness :
    ({ wJobPast with overdue := true }.overdue = true ↔
      ∃ d, { wJobPast with overdue := true }.scheduled_date = some d ∧ d < 2000 ∧
        ({ wJobPast with overdue := true }.status = JobStatus.PENDING ∨
          { wJobPast with overdue := true }.status = JobStatus.IN_PROGRESS)) :=
  (sweep_overdue_iff 2000 [wJobPast, wJobDone]).2
    { wJobPast with overdue := true } (by rw [check_overdue_jobs_fst]; decide)

/-- C5: the sweep is idempotent — a second run at the same time on the swept
store changes nothing and reports zero marked and zero cleared — and no job
matches both the mark filter and the clear filter of one run, so running the
two passes in either order yields the same store. -/
theorem sweep_idempotent_and_passes_disjoint (now : DateTime) (jobs : List Job) :
    ((check_overdue_jobs now (check_overdue_jobs now jobs).fst).fst
        = (check_overdue_jobs now jobs).fst
      ∧ (check_overdue_jobs now (check_overdue_jobs now jobs).fst).snd.marked_overdue = 0
      ∧ (check_overdue_jobs now (check_overdue_jobs now jobs).fst).snd.cleared_overdue = 0)
    ∧ (∀ j ∈ jobs, ¬(markMatch now j = true ∧ clearMatch now j = true))
    ∧ (markPass now (clearPass now jobs).fst).fst
        = (clearPass now (markPass now jobs).fst).fst := by
  have hmark0 : ∀ j ∈ jobs.map (sweepFix now), markMatch now j = false := by
    intro j hj
    rcases List.mem_map.mp hj with ⟨j0, _, rfl⟩
    exact markMatch_sweepFix now j0
  have hclear0 : ∀ j ∈ jobs.map (sweepFix now), clearMatch now j = false := by
    intro j hj
    rcases List.mem_map.mp hj with ⟨j0, _, rfl⟩
    exact clearMatch_sweepFix now j0
  have hmarkfst : (markPass now (jobs.map (sweepFix now))).fst = jobs.map (sweepFix now) := by
    simpa [markPass] using map_if_id (markMatch now) (fun j => { j with overdue := true })
      (jobs.map (sweepFix now)) hmark0
  refine ⟨⟨?_, ?_, ?_⟩, ?_, ?_⟩
  · rw [check_overdue_jobs_fst, check_overdue_jobs_fst, List.map_map]
    exact List.map_congr_left (fun j _ => sweepFix_idem now j)
  · rw [check_overdue_jobs_fst]
    exact filter_length_zero (markMatch now) (jobs.map (sweepFix now)) hmark0
  · rw [check_overdue_jobs_fst]
    show ((markPass now (jobs.map (sweepFix now))).fst.filter (clearMatch now)).length = 0
    rw [hmarkfst]
    exact filter_length_zero (clearMatch now) (jobs.map (sweepFix now)) hclear0
  · exact fun j _ => mark_clear_pointwise_disjoint now j
  · have h1 : (markPass now (clearPass now jobs).fst).fst = jobs.map (sweepFix now) := by
      simp only [markPass, clearPass, List.map_map]
      exact List.map_congr_left (fun j _ => by simpa using clear_then_mark_pointwise now j)
    have h2 : (clearPass now (markPass now jobs).fst).fst = jobs.map (sweepFix now) := by
      simp only [markPass, clearPass, List.map_map]
      exact List.map_congr_left (fun j _ => by simpa using sweepFix_pointwise now j)
    rw [h1, h2]

theorem sweep_idempotent_and_passes_disjoint_witness :
    ¬(markMatch 2000 wJobDone = true ∧ clearMatch 2000 wJobDone = true) :=
  (sweep_idempotent_and_passes_disjoint 2000 [wJobPast, wJobDone]).2.1
    wJobDone (by decide)

/-! ### Job status transitions (`jobs/views.py`) -/

/-- Outcome of `TechnicianJobUpdateView.patch`. -/
inductive JobPatchResult
  | forbiddenRole
  | notFound
  | forbiddenNotAssigned
  | invalidStatus
  | preconditionFailed (incomplete_tasks : List (Nat × String × TaskStatus))
  | ok (old_status new_status : JobStatus)
deriving DecidableEq, Repr

/-- The membership check `new_status in ['PENDING', 'IN_PROGRESS', 'COMPLETED',
'CANCELLED']` on the raw request payload (`None` when the key is absent). -/
def parseJobStatus (s : Option String) : Option JobStatus :=
  match s with
  | some "PENDING" => some .PENDING
  | some "IN_PROGRESS" => some .IN_PROGRESS
  | some "COMPLETED" => some .COMPLETED
  | some "CANCELLED" => some .CANCELLED
  | _ => none

/-- `job.jobtask_set.exclude(status="COMPLETED")`. -/
def incompleteTasks (tasks : List JobTask) (job_id : Nat) : List JobTask :=
  tasks.filter (fun t => t.job == job_id && !(t.status == TaskStatus.COMPLETED))

/-- `job.status = new_status; job.save()` over the store. -/
def saveJobStatus (jobs : List Job) (job_id : Nat) (s : JobStatus) : List Job :=
  jobs.map (fun j => if j.id == job_id then { j with status := s } else j)

/-- `TechnicianJobUpdateView.patch` from `jobs/views.py`: role gate, 404
lookup, assignee check, status validation, completion gate, then the write. -/
def technicianJobPatch (user : User) (jobs : List Job) (tasks : List JobTask)
    (job_id : Nat) (raw_status : Option String) : JobPatchResult × List Job :=
  if user.role ≠ Role.TECHNICIAN then (.forbiddenRole, jobs)
  else
    match findJob jobs job_id with
    | none => (.notFound, jobs)
    | some job =>
      if job.assigned_to ≠ user.id then (.forbiddenNotAssigned, jobs)
      else
        match parseJobStatus raw_status with
        | none => (.invalidStatus, jobs)
        | some new_status =>
          if new_status = JobStatus.COMPLETED then
            let incomplete := incompleteTasks tasks job_id
            if incomplete ≠ [] then
              (.preconditionFailed (incomplete.map (fun t => (t.id, t.title, t.status))),
               jobs)
            else (.ok job.status new_status, saveJobStatus jobs job_id new_status)
          else (.ok job.status new_status, saveJobStatus jobs job_id new_status)

/-- Outcome of a status update through `JobViewSet`. -/
inductive ViewSetResult
  | forbidden
  | notFound
  | invalidStatus
  | ok (old_status new_status : JobStatus)
deriving DecidableEq, Repr

/-- `role in ["ADMIN", "SALES_AGENT"]` from `jobs/permissions.py`. -/
def roleAdminOrSales (r : Role) : Bool :=
  match r with
  | .ADMIN => true
  | .SALES_AGENT => true
  | .TECHNICIAN => false

/-- `IsAdminOrSalesAgent.has_permission` from `jobs/permissions.py`. -/
def isAdminOrSalesAgent (user : User) : Bool :=
  user.is_authenticated && roleAdminOrSales user.role

/-- Status-only partial update through `JobViewSet` (`jobs/views.py`): the
`IsAdminOrSalesAgent` permission gate, the 404 lookup, `JobSerializer`
ChoiceField validation of `status`, then the default ModelSerializer write —
there is no completion gate on this route. -/
def jobViewSetUpdateStatus (user : User) (jobs : List Job)
    (job_id : Nat) (raw_status : Option String) : ViewSetResult × List Job :=
  if !(isAdminOrSalesAgent user) then (.forbidden, jobs)
  else
    match findJob jobs job_id with
    | none => (.notFound, jobs)
    | some job =>
      match parseJobStatus raw_status with
      | none => (.invalidStatus, jobs)
      | some new_status =>
        (.ok job.status new_status, saveJobStatus jobs job_id new_status)

def cAdmin : User := ⟨1, Role.ADMIN, true⟩

def cTech : User := ⟨2, Role.TECHNICIAN, true⟩

def cJob : Job :=
  ⟨10, "roof repair", "", "acme", some 100, JobStatus.IN_PROGRESS,
    Priority.MEDIUM, 1, 2, false⟩

def cTaskOpen : JobTask := ⟨5, "lift shingles", "", 1, none, TaskStatus.NOT_STARTED, 10⟩

/-- C1 counterexample: the claim quantifies over every caller, but the
admin/sales route (`JobViewSet`) has no completion gate — an admin moves a
job with a NOT_STARTED child task to COMPLETED and the write succeeds. -/
theorem jobViewSet_completion_gate_bypass :
    incompleteTasks [cTaskOpen] 10 ≠ []
    ∧ jobViewSetUpdateStatus cAdmin [cJob] 10 (some "COMPLETED")
        = (.ok JobStatus.IN_PROGRESS JobStatus.COMPLETED,
           [{ cJob with status := JobStatus.COMPLETED }]) := by
  constructor
  · decide
  · rfl

/-- C1 amended: on the technician route (`TechnicianJobUpdateView.patch`),
for the assigned technician a transition to COMPLETED is rejected with a
structured error listing every child task not in COMPLETED status (by id,
title, status) and the store is unchanged, unless every child task is
COMPLETED; with zero tasks or all tasks COMPLETED the transition succeeds. -/
theorem technician_completion_gate (user : User) (jobs : List Job)
    (tasks : List JobTask) (job_id : Nat) (job : Job)
    (hrole : user.role = Role.TECHNICIAN)
    (hfind : findJob jobs job_id = some job)
    (hassigned : job.assigned_to = user.id) :
    (incompleteTasks tasks job_id ≠ [] →
      technicianJobPatch user jobs tasks job_id (some "COMPLETED")
        = (.preconditionFailed ((incompleteTasks tasks job_id).map
            (fun t => (t.id, t.title, t.status))), jobs))
    ∧ (incompleteTasks tasks job_id = [] →
      technicianJobPatch user jobs tasks job_id (some "COMPLETED")
        = (.ok job.status JobStatus.COMPLETED,
           saveJobStatus jobs job_id JobStatus.COMPLETED)) := by
  constructor
  · intro hne
    simp [technicianJobPatch, hrole, hfind, hassigned, parseJobStatus, hne]
  · intro he
    simp [technicianJobPatch, hrole, hfind, hassigned, parseJobStatus, he]

def cJobMine : Job :=
  ⟨10, "roof repair", "", "acme", some 100, JobStatus.IN_PROGRESS,
    Priority.MEDIUM, 1, cTech.id, false⟩

theorem technician_completion_gate_witness :
    technicianJobPatch cTech [cJobMine] [cTaskOpen] 10 (some "COMPLETED")
      = (.preconditionFailed [(5, "lift shingles", TaskStatus.NOT_STARTED)],
         [cJobMine]) :=
  (technician_completion_gate cTech [cJobMine] [cTaskOpen] 10 cJobMine
    (by decide) (by decide) (by decide)).1 (by decide)

/-- C4: on the technician route a technician who is not the job's assignee is
rejected with Forbidden for every requested target status; the assigned
technician is never rejected for authorization reasons; and an authenticated
admin or sales agent is never rejected with Forbidden on the unrestricted
`JobViewSet` route. -/
theorem job_transition_authorization (user : User) (jobs : List Job)
    (tasks : List JobTask) (job_id : Nat) (job : Job) (raw_status : Option String)
    (hfind : findJob jobs job_id = some job) :
    (user.role = Role.TECHNICIAN → job.assigned_to ≠ user.id →
      technicianJobPatch user jobs tasks job_id raw_status
        = (.forbiddenNotAssigned, jobs))
    ∧ (user.role = Role.TECHNICIAN → job.assigned_to = user.id →
      (technicianJobPatch user jobs tasks job_id raw_status).fst ≠ .forbiddenRole
      ∧ (technicianJobPatch user jobs tasks job_id raw_status).fst
          ≠ .forbiddenNotAssigned)
    ∧ (user.is_authenticated = true → roleAdminOrSales user.role = true →
      (jobViewSetUpdateStatus user jobs job_id raw_status).fst ≠ .forbidden) := by
  refine ⟨?_, ?_, ?_⟩
  · intro hrole hna
    simp [technicianJobPatch, hrole, hfind, hna]
  · intro hrole ha
    simp only [technicianJobPatch, hrole, hfind]
    cases parseJobStatus raw_status with
    | none => simp [ha]
    | some s =>
      cases s <;> simp [ha] <;>
        by_cases hne : incompleteTasks tasks job_id = [] <;> simp [hne]
  · intro hauth hrole
    simp only [jobViewSetUpdateStatus, isAdminOrSalesAgent, hauth, hrole, hfind]
    cases parseJobStatus raw_status with
    | none => simp
    | some s => simp

theorem job_transition_authorization_witness :
    technicianJobPatch ⟨3, Role.TECHNICIAN, true⟩ [cJobMine] [] 10 (some "COMPLETED")
      = (.forbiddenNotAssigned, [cJobMine]) :=
  (job_transition_authorization ⟨3, Role.TECHNICIAN, true⟩ [cJobMine] [] 10 cJobMine
    (some "COMPLETED") (by decide)).1 (by decide) (by decide)

/-! ### Task status transitions (`jobs/views.py`, `jobs/serializers.py`) -/

/-- Outcome of `TechnicianTaskUpdateView.patch`. -/
inductive TaskPatchResult
  | forbiddenRole
  | notFound
  | forbiddenNotAssigned
  | invalidStatus
  | ok (old_status new_status : TaskStatus) (completed_at : Option DateTime)
deriving DecidableEq, Repr

/-- The membership check `new_status in ['NOT_STARTED', 'IN_PROGRESS',
'COMPLETED']` on the raw request payload. -/
def parseTaskStatus (s : Option String) : Option TaskStatus :=
  match s with
  | some "NOT_STARTED" => some .NOT_STARTED
  | some "IN_PROGRESS" => some .IN_PROGRESS
  | some "COMPLETED" => some .COMPLETED
  | _ => none

/-- The status write of `TechnicianTaskUpdateView.patch`: set the status,
stamp `completed_at` with the current time on entering COMPLETED if unset,
clear it whenever the new status is not COMPLETED. -/
def applyTaskStatus (now : DateTime) (task : JobTask) (new_status : TaskStatus) :
    JobTask :=
  let t := { task with status := new_status }
  if new_status = TaskStatus.COMPLETED ∧ t.completed_at = none then
    { t with completed_at := some now }
  else if new_status ≠ TaskStatus.COMPLETED then
    { t with completed_at := none }
  else t

/-- `task.save()` over the store. -/
def saveTask (tasks : List JobTask) (t : JobTask) : List JobTask :=
  tasks.map (fun x => if x.id == t.id then t else x)

/-- `TechnicianTaskUpdateView.patch` from `jobs/views.py`: role gate, 404
lookup, assignee check through the task's parent job, status validation,
then the write. A dangling `task.job` foreign key cannot occur in the store;
it is mapped to the not-found outcome. -/
def technicianTaskPatch (user : User) (jobs : List Job) (tasks : List JobTask)
    (now : DateTime) (task_id : Nat) (raw_status : Option String) :
    TaskPatchResult × List JobTask :=
  if user.role ≠ Role.TECHNICIAN then (.forbiddenRole, tasks)
  else
    match findTask tasks task_id with
    | none => (.notFound, tasks)
    | some task =>
      match findJob jobs task.job with
      | none => (.notFound, tasks)
      | some job =>
        if job.assigned_to ≠ user.id then (.forbiddenNotAssigned, tasks)
        else
          match parseTaskStatus raw_status with
          | none => (.invalidStatus, tasks)
          | some new_status =>
            let updated := applyTaskStatus now task new_status
            (.ok task.status new_status updated.completed_at, saveTask tasks updated)

/-- `JobTaskSerializer.update` from `jobs/serializers.py`, restricted to a
status-only payload (the route used by `JobTaskViewSet` for admins and sales
agents): sets the attributes, then stamps `completed_at` when the updated
status is COMPLETED and it was unset — it never clears `completed_at` when
the status leaves COMPLETED. -/
def jobTaskSerializerUpdateStatus (now : DateTime) (task : JobTask)
    (new_status : Option TaskStatus) : JobTask :=
  let t := match new_status with
    | some s => { task with status := s }
    | none => task
  if t.status = TaskStatus.COMPLETED ∧ t.completed_at = none then
    { t with completed_at := some now }
  else t

def cTaskDone : JobTask := ⟨5, "lift shingles", "", 1, some 100, TaskStatus.COMPLETED, 10⟩

/-- C2 counterexample: the claim quantifies over every route, but the
serializer route never clears `completed_at` — moving a COMPLETED task with
`completed_at = 100` to IN_PROGRESS through `JobTaskSerializer.update`
leaves `completed_at` non-null while the status is not COMPLETED. -/
theorem serializer_completed_at_not_cleared :
    (jobTaskSerializerUpdateStatus 200 cTaskDone (some TaskStatus.IN_PROGRESS)).status
        = TaskStatus.IN_PROGRESS
    ∧ (jobTaskSerializerUpdateStatus 200 cTaskDone
        (some TaskStatus.IN_PROGRESS)).completed_at = some 100 := by
  decide

theorem applyTaskStatus_id (now : DateTime) (task : JobTask) (ns : TaskStatus) :
    (applyTaskStatus now task ns).id = task.id := by
  cases ns <;> cases h : task.completed_at <;> simp_all [applyTaskStatus]

theorem applyTaskStatus_invariant (now : DateTime) (task : JobTask)
    (new_status : TaskStatus) :
    ((applyTaskStatus now task new_status).completed_at ≠ none
      ↔ (applyTaskStatus now task new_status).status = TaskStatus.COMPLETED) := by
  cases new_status <;> cases h : task.completed_at <;>
    simp_all [applyTaskStatus]

theorem technicianTaskPatch_ok_shape (user : User) (jobs : List Job)
    (tasks : List JobTask) (now : DateTime) (task_id : Nat)
    (raw_status : Option String) (o n : TaskStatus) (c : Option DateTime)
    (ts : List JobTask)
    (h : technicianTaskPatch user jobs tasks now task_id raw_status = (.ok o n c, ts)) :
    ∃ task ns, findTask tasks task_id = some task
      ∧ parseTaskStatus raw_status = some ns
      ∧ ts = saveTask tasks (applyTaskStatus now task ns) := by
  unfold technicianTaskPatch at h
  split at h
  · simp at h
  · split at h
    · simp at h
    · rename_i task hft
      split at h
      · simp at h
      · rename_i job hfj
        split at h
        · simp at h
        · split at h
          · simp at h
          · rename_i ns hps
            injection h with h1 h2
            exact ⟨task, ns, hft, hps, h2.symm⟩

/-- C2 amended: on the technician route (`TechnicianTaskUpdateView.patch`),
after any successful status transition the transitioned task satisfies
`completed_at` non-null if and only if its status is COMPLETED (stamped on
entering COMPLETED if previously unset, cleared on leaving COMPLETED); the
serializer route only stamps and never clears. -/
theorem technician_task_completed_at_invariant (user : User) (jobs : List Job)
    (tasks : List JobTask) (now : DateTime) (task_id : Nat)
    (raw_status : Option String) (o n : TaskStatus) (c : Option DateTime)
    (ts : List JobTask)
    (h : technicianTaskPatch user jobs tasks now task_id raw_status = (.ok o n c, ts)) :
    ∀ t ∈ ts, t.id = task_id →
      (t.completed_at ≠ none ↔ t.status = TaskStatus.COMPLETED) := by
  obtain ⟨task, ns, hft, hps, hts⟩ :=
    technicianTaskPatch_ok_shape user jobs tasks now task_id raw_status o n c ts h
  intro t ht hid
  rw [hts] at ht
  rcases List.mem_map.mp ht with ⟨x, _, rfl⟩
  cases hc : (x.id == (applyTaskStatus now task ns).id) with
  | true =>
    simp only [saveTask, hc, if_true]
    exact applyTaskStatus_invariant now task ns
  | false =>
    exfalso
    simp only [hc] at hid
    simp only [Bool.false_eq_true, if_false] at hid
    have htask : task.id = task_id := by
      have := List.find?_some hft
      simpa using this
    rw [applyTaskStatus_id, htask, ← hid] at hc
    simp at hc

def cTaskCompleted : JobTask :=
  ⟨5, "lift shingles", "", 1, some 300, TaskStatus.COMPLETED, 10⟩

theorem technician_task_completed_at_invariant_witness :
    (cTaskCompleted.completed_at ≠ none
      ↔ cTaskCompleted.status = TaskStatus.COMPLETED) :=
  technician_task_completed_at_invariant cTech [cJobMine] [cTaskOpen] 300 5
    (some "COMPLETED") TaskStatus.NOT_STARTED TaskStatus.COMPLETED (some 300)
    [cTaskCompleted] (by decide) cTaskCompleted (by decide) (by decide)

/-! ### Task equipment ledger (`jobs/models.py`, `jobs/serializers.py`) -/

/-- Ledger failure kinds: the serializer-level quantity validation and the
`unique_together ["job_task", "equipment"]` database constraint. -/
inductive LedgerError
  | invalidQuantity
  | duplicateEquipment
deriving DecidableEq, Repr

/-- Upper bound of a Django `PositiveIntegerField`. -/
def QUANTITY_MAX : Nat := 2147483647

/-- The validation DRF generates for `JobTaskEquipment.quantity`, a Django
`PositiveIntegerField`: integers from 0 to 2147483647 pass — in particular 0
passes. -/
def validQuantity (q : Int) : Bool :=
  decide (0 ≤ q ∧ q ≤ (QUANTITY_MAX : Int))

/-- One element of the write-only `equipment_requirements` payload of
`JobTaskSerializer`. -/
structure EquipmentReqInput where
  equipment_id : Nat
  quantity : Int
  notes : String
deriving DecidableEq, Repr

/-- Whether the ledger already holds an entry for the (task, equipment)
pair guarded by `unique_together`. -/
def hasEntry (ledger : List JobTaskEquipment) (task_id equipment_id : Nat) : Bool :=
  ledger.any (fun e => e.job_task == task_id && e.equipment_id == equipment_id)

/-- One `JobTaskEquipment.objects.create(...)` guarded by the serializer
quantity validation and the unique-(task, equipment) constraint. -/
def addRequirement (ledger : List JobTaskEquipment) (task_id : Nat)
    (req : EquipmentReqInput) : Except LedgerError (List JobTaskEquipment) :=
  if !(validQuantity req.quantity) then .error .invalidQuantity
  else if hasEntry ledger task_id req.equipment_id then .error .duplicateEquipment
  else .ok (ledger ++ [⟨task_id, req.equipment_id, req.quantity.toNat, req.notes⟩])

/-- The creation loop over the `equipment_requirements` payload. -/
def insertRequirements (ledger : List JobTaskEquipment) (task_id : Nat) :
    List EquipmentReqInput → Except LedgerError (List JobTaskEquipment)
  | [] => .ok ledger
  | r :: rs =>
    match addRequirement ledger task_id r with
    | .error e => .error e
    | .ok l2 => insertRequirements l2 task_id rs

/-- The `equipment_requirements` branch of `JobTaskSerializer.update`: when a
list is provided, `instance.jobtaskequipment_set.all().delete()` removes every
entry of the task and the loop inserts the given list; when the payload is
absent (`None`), the ledger is left unchanged. -/
def set_requirements (ledger : List JobTaskEquipment) (task_id : Nat)
    (reqs : Option (List EquipmentReqInput)) :
    Except LedgerError (List JobTaskEquipment) :=
  match reqs with
  | none => .ok ledger
  | some rs =>
    insertRequirements (ledger.filter (fun e => !(e.job_task == task_id))) task_id rs

/-- C6 counterexample: a requirement with quantity 0 passes validation and is
stored — `PositiveIntegerField` admits 0, so a zero quantity is not rejected. -/
theorem quantity_zero_accepted :
    validQuantity 0 = true
    ∧ addRequirement [] 1 ⟨2, 0, ""⟩ = .ok [⟨1, 2, 0, ""⟩] := by
  constructor
  · decide
  · rfl

/-- C6 amended: the quantity of a submitted requirement must be a
non-negative integer (at most 2147483647): a negative quantity is rejected
as a validation failure and not stored, while any quantity in range —
including 0 — is stored as given when the (task, equipment) pair is new. -/
theorem quantity_validation_bounds (ledger : List JobTaskEquipment)
    (task_id : Nat) (req : EquipmentReqInput) :
    (req.quantity < 0 →
      addRequirement ledger task_id req = .error .invalidQuantity)
    ∧ (0 ≤ req.quantity → req.quantity ≤ (QUANTITY_MAX : Int) →
      hasEntry ledger task_id req.equipment_id = false →
      addRequirement ledger task_id req
        = .ok (ledger ++ [⟨task_id, req.equipment_id, req.quantity.toNat, req.notes⟩])) := by
  constructor
  · intro hneg
    have hv : validQuantity req.quantity = false := by
      simp [validQuantity]
      intro h
      omega
    simp [addRequirement, hv]
  · intro h0 hmax hdup
    have hv : validQuantity req.quantity = true := by
      simp [validQuantity]
      exact ⟨h0, hmax⟩
    simp [addRequirement, hv, hdup]

theorem quantity_validation_bounds_witness :
    addRequirement [] 1 ⟨2, -3, ""⟩ = .error .invalidQuantity :=
  (quantity_validation_bounds [] 1 ⟨2, -3, ""⟩).1 (by decide)

/-- The JobTaskEquipment row built from one payload element. -/
def reqEntry (task_id : Nat) (r : EquipmentReqInput) : JobTaskEquipment :=
  ⟨task_id, r.equipment_id, r.quantity.toNat, r.notes⟩

theorem insertRequirements_ok (task_id : Nat) (rs : List EquipmentReqInput)
    (ledger out : List JobTaskEquipment)
    (h : insertRequirements ledger task_id rs = .ok out) :
    out = ledger ++ rs.map (reqEntry task_id) := by
  induction rs generalizing ledger with
  | nil =>
    simp only [insertRequirements] at h
    injection h with h1
    simp [h1.symm]
  | cons r rest ih =>
    simp only [insertRequirements] at h
    cases ha : addRequirement ledger task_id r with
    | error e => rw [ha] at h; simp at h
    | ok l2 =>
      rw [ha] at h
      have hl2 : l2 = ledger ++ [reqEntry task_id r] := by
        simp only [addRequirement] at ha
        split at ha
        · simp at ha
        · split at ha
          · simp at ha
          · injection ha with h2
            simp [h2.symm, reqEntry]
      have := ih l2 h
      rw [hl2] at this
      simpa using this

theorem filter_eq_nil_of_false {α : Type} (p : α → Bool) (l : List α)
    (h : ∀ a ∈ l, p a = false) : l.filter p = [] := by
  induction l with
  | nil => rfl
  | cons x xs ih =>
    have hx := h x (List.mem_cons_self x xs)
    have ih2 := ih fun a ha => h a (List.mem_cons_of_mem x ha)
    simp [List.filter_cons, hx, ih2]

theorem filter_eq_self_of_true {α : Type} (p : α → Bool) (l : List α)
    (h : ∀ a ∈ l, p a = true) : l.filter p = l := by
  induction l with
  | nil => rfl
  | cons x xs ih =>
    have hx := h x (List.mem_cons_self x xs)
    have ih2 := ih fun a ha => h a (List.mem_cons_of_mem x ha)
    simp [List.filter_cons, hx, ih2]

/-- C7: `set_requirements` has full-replace semantics — after a successful
call with list A followed by a successful call with list B, the resulting
store is the prior store stripped of every entry of the task followed by
exactly the rows of list B, so the task's ledger holds exactly B's entries;
and an update carrying no requirement list leaves the store unchanged. -/
theorem set_requirements_full_replace (ledger : List JobTaskEquipment)
    (task_id : Nat) (A B : List EquipmentReqInput)
    (l1 l2 : List JobTaskEquipment)
    (hA : set_requirements ledger task_id (some A) = .ok l1)
    (hB : set_requirements l1 task_id (some B) = .ok l2) :
    l2 = l1.filter (fun e => !(e.job_task == task_id)) ++ B.map (reqEntry task_id)
    ∧ l2.filter (fun e => e.job_task == task_id) = B.map (reqEntry task_id)
    ∧ set_requirements l1 task_id none = .ok l1 := by
  have h2 : l2 = l1.filter (fun e => !(e.job_task == task_id))
      ++ B.map (reqEntry task_id) :=
    insertRequirements_ok task_id B _ l2 hB
  refine ⟨h2, ?_, rfl⟩
  rw [h2, List.filter_append]
  have hleft : (l1.filter (fun e => !(e.job_task == task_id))).filter
      (fun e => e.job_task == task_id) = [] := by
    apply filter_eq_nil_of_false
    intro a ha
    have := List.of_mem_filter ha
    simpa using this
  have hright : (B.map (reqEntry task_id)).filter
      (fun e => e.job_task == task_id) = B.map (reqEntry task_id) := by
    apply filter_eq_self_of_true
    intro a ha
    rcases List.mem_map.mp ha with ⟨r, _, rfl⟩
    simp [reqEntry]
  rw [hleft, hright, List.nil_append]

theorem set_requirements_full_replace_witness :
    [(⟨7, 3, 2, ""⟩ : JobTaskEquipment)].filter (fun e => e.job_task == 7)
      = [⟨7, 3, 2, ""⟩] :=
  (set_requirements_full_replace [] 7 [⟨4, 1, ""⟩] [⟨3, 2, ""⟩]
    [⟨7, 4, 1, ""⟩] [⟨7, 3, 2, ""⟩] (by rfl) (by rfl)).2.1

/-! ### Technician dashboard (`jobs/views.py`, `TechnicianDashboardView.get`) -/

/-- One element of `required_equipment` in the dashboard payload. -/
structure ReqData where
  equipment_name : String
  equipment_type : String
  quantity : Nat
  notes : String
deriving DecidableEq, Repr

/-- One element of `active_tasks` in the dashboard payload. -/
structure ActiveTaskData where
  id : Nat
  title : String
  description : String
  order : Nat
  status : TaskStatus
  required_equipment : List ReqData
deriving DecidableEq, Repr

/-- The `job_data` dictionary built for each job in the dashboard loop. -/
structure JobData where
  id : Nat
  title : String
  client_name : String
  status : JobStatus
  priority : Priority
  scheduled_date : Option DateTime
  description : String
  tasks_count : Nat
  completed_tasks : Nat
  active_tasks : List ActiveTaskData
deriving DecidableEq, Repr

/-- `status__in=["NOT_STARTED", "IN_PROGRESS"]` for active tasks. -/
def taskStatusActive (s : TaskStatus) : Bool :=
  match s with
  | .NOT_STARTED => true
  | .IN_PROGRESS => true
  | .COMPLETED => false

/-- `req.equipment.name` / `req.equipment.eq_type` resolution; a dangling
foreign key cannot occur in the store and falls back to empty strings. -/
def reqDataOf (es : List Equipment) (r : JobTaskEquipment) : ReqData :=
  match findEquipment es r.equipment_id with
  | some e => ⟨e.name, e.eq_type, r.quantity, r.notes⟩
  | none => ⟨"", "", r.quantity, r.notes⟩

/-- The per-task dictionary inside `active_tasks`, with its
`task.jobtaskequipment_set.all()` annotations. -/
def taskDataOf (es : List Equipment) (ledger : List JobTaskEquipment)
    (t : JobTask) : ActiveTaskData :=
  ⟨t.id, t.title, t.description, t.order, t.status,
    (ledger.filter (fun r => r.job_task == t.id)).map (reqDataOf es)⟩

/-- Insertion step of the `.order_by('order')` sort. -/
def insertByOrder (t : JobTask) : List JobTask → List JobTask
  | [] => [t]
  | x :: xs => if t.order ≤ x.order then t :: x :: xs else x :: insertByOrder t xs

/-- `.order_by('order')` over a task list. -/
def sortByOrder : List JobTask → List JobTask
  | [] => []
  | t :: ts => insertByOrder t (sortByOrder ts)

/-- The `job_data` dictionary of the dashboard loop: counters over
`job.jobtask_set` and the active tasks ordered by `order`. -/
def jobDataOf (es : List Equipment) (ledger : List JobTaskEquipment)
    (tasks : List JobTask) (j : Job) : JobData :=
  let jobTasks := tasks.filter (fun t => t.job == j.id)
  ⟨j.id, j.title, j.client_name, j.status, j.priority, j.scheduled_date,
    j.description,
    jobTasks.length,
    (jobTasks.filter (fun t => t.status == TaskStatus.COMPLETED)).length,
    (sortByOrder (jobTasks.filter (fun t => taskStatusActive t.status))).map
      (taskDataOf es ledger)⟩

/-- The four `grouped_jobs` lists. -/
structure GroupedJobs where
  today : List JobData
  upcoming : List JobData
  overdue : List JobData
  unscheduled : List JobData
deriving DecidableEq, Repr

/-- The `summary` dictionary of the dashboard response. -/
structure DashboardSummary where
  total_active_jobs : Nat
  today_count : Nat
  overdue_count : Nat
deriving DecidableEq, Repr

/-- The dashboard response: the non-technician 403, the
`"No jobs assigned yet"` detail answer, or the grouped report. -/
inductive DashboardResponse
  | forbiddenRole
  | noJobs
  | ok (jobs_by_schedule : GroupedJobs) (summary : DashboardSummary)
deriving DecidableEq, Repr

/-- The destination chosen by the `if/elif` chain at the end of the loop
body. -/
inductive Bucket
  | today
  | upcoming
  | overdue
  | unscheduled
deriving DecidableEq, Repr

/-- The scheduled-date classification of one job: null date is unscheduled,
date component equal to today is today, later is upcoming, otherwise
overdue. -/
def bucketOf (todayDate : Nat) (j : Job) : Bucket :=
  match j.scheduled_date with
  | none => .unscheduled
  | some d =>
    if dateOf d = todayDate then .today
    else if dateOf d > todayDate then .upcoming
    else .overdue

/-- One iteration of the dashboard loop: skip COMPLETED jobs, append
`job_data` to the bucket chosen by `bucketOf`. -/
def groupStep (es : List Equipment) (ledger : List JobTaskEquipment)
    (tasks : List JobTask) (todayDate : Nat) (g : GroupedJobs) (j : Job) :
    GroupedJobs :=
  if j.status = JobStatus.COMPLETED then g
  else
    let jd := jobDataOf es ledger tasks j
    match bucketOf todayDate j with
    | .unscheduled => { g with unscheduled := g.unscheduled ++ [jd] }
    | .today => { g with today := g.today ++ [jd] }
    | .upcoming => { g with upcoming := g.upcoming ++ [jd] }
    | .overdue => { g with overdue := g.overdue ++ [jd] }

/-- The dashboard loop over the technician's jobs. -/
def groupJobs (es : List Equipment) (ledger : List JobTaskEquipment)
    (tasks : List JobTask) (todayDate : Nat) (jobs : List Job) : GroupedJobs :=
  jobs.foldl (groupStep es ledger tasks todayDate) ⟨[], [], [], []⟩

/-- `Job.objects.filter(assigned_to=user)`. -/
def assignedJobs (jobs : List Job) (user : User) : List Job :=
  jobs.filter (fun j => j.assigned_to == user.id)

/-- The `summary` dictionary values: overall count of the bucketed jobs and
the today and overdue bucket counts. -/
def dashboardSummaryOf (g : GroupedJobs) : DashboardSummary :=
  ⟨g.today.length + g.upcoming.length + g.overdue.length + g.unscheduled.length,
    g.today.length, g.overdue.length⟩

/-- `TechnicianDashboardView.get` from `jobs/views.py`: role gate, the
no-jobs early return, then the grouped report with the summary counters. -/
def technicianDashboard (user : User) (jobs : List Job) (tasks : List JobTask)
    (ledger : List JobTaskEquipment) (es : List Equipment) (todayDate : Nat) :
    DashboardResponse :=
  if user.role ≠ Role.TECHNICIAN then .forbiddenRole
  else if (assignedJobs jobs user).isEmpty then .noJobs
  else
    DashboardResponse.ok
      (groupJobs es ledger tasks todayDate (assignedJobs jobs user))
      (dashboardSummaryOf
        (groupJobs es ledger tasks todayDate (assignedJobs jobs user)))

/-- Selector for the four grouped lists. -/
def bucketList (g : GroupedJobs) (b : Bucket) : List JobData :=
  match b with
  | .today => g.today
  | .upcoming => g.upcoming
  | .overdue => g.overdue
  | .unscheduled => g.unscheduled

theorem groupStep_bucketList (es : List Equipment) (ledger : List JobTaskEquipment)
    (tasks : List JobTask) (d : Nat) (g : GroupedJobs) (j : Job) (b : Bucket) :
    bucketList (groupStep es ledger tasks d g j) b
      = bucketList g b
        ++ (if (!(j.status == JobStatus.COMPLETED) && (bucketOf d j == b)) = true
            then [jobDataOf es ledger tasks j] else []) := by
  unfold groupStep
  by_cases hc : j.status = JobStatus.COMPLETED
  · simp only [hc, if_true]
    cases b <;> simp [bucketList]
  · cases hb : bucketOf d j <;> cases b <;>
      simp_all [bucketList]

theorem groupJobs_foldl (es : List Equipment) (ledger : List JobTaskEquipment)
    (tasks : List JobTask) (d : Nat) (jobs : List Job) (g : GroupedJobs)
    (b : Bucket) :
    bucketList (jobs.foldl (groupStep es ledger tasks d) g) b
      = bucketList g b
        ++ (jobs.filter
            (fun j => !(j.status == JobStatus.COMPLETED) && (bucketOf d j == b))).map
          (jobDataOf es ledger tasks) := by
  induction jobs generalizing g with
  | nil => simp
  | cons j js ih =>
    rw [List.foldl_cons, ih, groupStep_bucketList, List.filter_cons]
    by_cases hj : (!(j.status == JobStatus.COMPLETED) && (bucketOf d j == b)) = true
    · simp [hj]
    · simp [hj]

theorem bucketList_groupJobs (es : List Equipment) (ledger : List JobTaskEquipment)
    (tasks : List JobTask) (d : Nat) (jobs : List Job) (b : Bucket) :
    bucketList (groupJobs es ledger tasks d jobs) b
      = (jobs.filter
          (fun j => !(j.status == JobStatus.COMPLETED) && (bucketOf d j == b))).map
        (jobDataOf es ledger tasks) := by
  unfold groupJobs
  rw [groupJobs_foldl]
  cases b <;> simp [bucketList]

theorem technicianDashboard_ok_shape (user : User) (jobs : List Job)
    (tasks : List JobTask) (ledger : List JobTaskEquipment) (es : List Equipment)
    (d : Nat) (g : GroupedJobs) (s : DashboardSummary)
    (h : technicianDashboard user jobs tasks ledger es d = .ok g s) :
    g = groupJobs es ledger tasks d (assignedJobs jobs user)
    ∧ s = dashboardSummaryOf g := by
  unfold technicianDashboard at h
  split at h
  · simp at h
  · split at h
    · simp at h
    · injection h with h1 h2
      refine ⟨h1.symm, ?_⟩
      rw [h1] at h2
      exact h2.symm

theorem assignedJobs_overdue_irrel (jobs : List Job) (user : User)
    (f : Job → Bool) :
    assignedJobs (jobs.map (fun j => { j with overdue := f j })) user
      = (assignedJobs jobs user).map (fun j => { j with overdue := f j }) := by
  unfold assignedJobs
  rw [List.filter_map]
  congr 1

theorem groupJobs_overdue_irrel (es : List Equipment)
    (ledger : List JobTaskEquipment) (tasks : List JobTask) (d : Nat)
    (jobs : List Job) (f : Job → Bool) :
    groupJobs es ledger tasks d (jobs.map (fun j => { j with overdue := f j }))
      = groupJobs es ledger tasks d jobs := by
  unfold groupJobs
  rw [List.foldl_map]
  congr 1

theorem dashboard_overdue_irrel (user : User) (jobs : List Job)
    (tasks : List JobTask) (ledger : List JobTaskEquipment) (es : List Equipment)
    (d : Nat) (f : Job → Bool) :
    technicianDashboard user (jobs.map (fun j => { j with overdue := f j }))
        tasks ledger es d
      = technicianDashboard user jobs tasks ledger es d := by
  unfold technicianDashboard
  rw [assignedJobs_overdue_irrel]
  have h1 : ((assignedJobs jobs user).map
      (fun j => { j with overdue := f j })).isEmpty
      = (assignedJobs jobs user).isEmpty := by
    cases assignedJobs jobs user <;> rfl
  rw [h1, groupJobs_overdue_irrel]

/-- C8: in a dashboard response every assigned non-COMPLETED job lands in
exactly the bucket selected by its scheduled_date's date component — null in
unscheduled, today's date in today, future in upcoming, past in overdue — a
COMPLETED job appears in no bucket, and the response is unchanged under any
reassignment of the persisted overdue flags, so the bucketing never consults
them. -/
theorem dashboard_bucketing (user : User) (jobs : List Job)
    (tasks : List JobTask) (ledger : List JobTaskEquipment) (es : List Equipment)
    (todayDate : Nat) (g : GroupedJobs) (s : DashboardSummary)
    (h : technicianDashboard user jobs tasks ledger es todayDate = .ok g s) :
    (∀ b : Bucket, bucketList g b
      = ((assignedJobs jobs user).filter
          (fun j => !(j.status == JobStatus.COMPLETED)
            && (bucketOf todayDate j == b))).map
        (jobDataOf es ledger tasks))
    ∧ ∀ f : Job → Bool,
        technicianDashboard user (jobs.map (fun j => { j with overdue := f j }))
          tasks ledger es todayDate = .ok g s := by
  obtain ⟨hg, _⟩ :=
    technicianDashboard_ok_shape user jobs tasks ledger es todayDate g s h
  constructor
  · intro b
    rw [hg]
    exact bucketList_groupJobs es ledger tasks todayDate (assignedJobs jobs user) b
  · intro f
    rw [dashboard_overdue_irrel, h]

def cJobLate : Job :=
  ⟨11, "gutter fix", "", "acme", some 100, JobStatus.PENDING,
    Priority.MEDIUM, 1, 2, false⟩

theorem dashboard_bucketing_witness :
    bucketList
      ⟨[], [], [jobDataOf [] [] [] cJobLate], []⟩ Bucket.overdue
      = ((assignedJobs [cJobLate] cTech).filter
          (fun j => !(j.status == JobStatus.COMPLETED)
            && (bucketOf 5 j == Bucket.overdue))).map
        (jobDataOf [] [] []) :=
  (dashboard_bucketing cTech [cJobLate] [] [] [] 5
    ⟨[], [], [jobDataOf [] [] [] cJobLate], []⟩
    ⟨1, 0, 1⟩ (by rfl)).1 Bucket.overdue

/-- C9 counterexample: a technician with zero assigned jobs receives the
`"No jobs assigned yet"` detail answer, not a response holding four empty
buckets with zero counts. -/
theorem dashboard_no_jobs_detail :
    technicianDashboard cTech [] [] [] [] 100 = .noJobs
    ∧ technicianDashboard cTech [] [] [] [] 100
        ≠ .ok ⟨[], [], [], []⟩ ⟨0, 0, 0⟩ := by
  constructor
  · rfl
  · intro h
    simp [technicianDashboard, assignedJobs, cTech] at h

/-- C9 amended: for a technician with at least one assigned job the dashboard
returns the four buckets together with the overall active-job count and the
today and overdue bucket counts in a single response; with zero assigned jobs
it returns a plain no-jobs detail message without buckets or counts. -/
theorem dashboard_buckets_and_counts (user : User) (jobs : List Job)
    (tasks : List JobTask) (ledger : List JobTaskEquipment) (es : List Equipment)
    (todayDate : Nat)
    (hrole : user.role = Role.TECHNICIAN)
    (hne : assignedJobs jobs user ≠ []) :
    (∃ g : GroupedJobs,
      technicianDashboard user jobs tasks ledger es todayDate
        = .ok g ⟨g.today.length + g.upcoming.length + g.overdue.length
            + g.unscheduled.length, g.today.length, g.overdue.length⟩)
    ∧ (assignedJobs jobs user = [] →
        technicianDashboard user jobs tasks ledger es todayDate = .noJobs) := by
  constructor
  · refine ⟨groupJobs es ledger tasks todayDate (assignedJobs jobs user), ?_⟩
    unfold technicianDashboard
    have hni : (assignedJobs jobs user).isEmpty = false := by
      cases he : assignedJobs jobs user with
      | nil => exact absurd he hne
      | cons x xs => rfl
    simp [hrole, hni, dashboardSummaryOf]
  · intro he
    exact absurd he hne

theorem dashboard_buckets_and_counts_witness :
    ∃ g : GroupedJobs,
      technicianDashboard cTech [cJobLate] [] [] [] 5
        = .ok g ⟨g.today.length + g.upcoming.length + g.overdue.length
            + g.unscheduled.length, g.today.length, g.overdue.length⟩ :=
  (dashboard_buckets_and_counts cTech [cJobLate] [] [] [] 5
    (by decide) (by decide)).1

/-- C10: only COMPLETED jobs are excluded from the dashboard — an assigned
CANCELLED job lands in the bucket chosen by its scheduled date, and in
particular a CANCELLED job with a past scheduled date appears in the overdue
bucket. -/
theorem dashboard_includes_cancelled (user : User) (jobs : List Job)
    (tasks : List JobTask) (ledger : List JobTaskEquipment) (es : List Equipment)
    (todayDate : Nat) (g : GroupedJobs) (s : DashboardSummary) (j : Job)
    (h : technicianDashboard user jobs tasks ledger es todayDate = .ok g s)
    (hj : j ∈ jobs) (ha : j.assigned_to = user.id)
    (hc : j.status = JobStatus.CANCELLED) :
    jobDataOf es ledger tasks j ∈ bucketList g (bucketOf todayDate j)
    ∧ (∀ d, j.scheduled_date = some d → dateOf d < todayDate →
        jobDataOf es ledger tasks j ∈ g.overdue) := by
  obtain ⟨hg, _⟩ :=
    technicianDashboard_ok_shape user jobs tasks ledger es todayDate g s h
  have hmine : j ∈ assignedJobs jobs user := by
    unfold assignedJobs
    exact List.mem_filter.mpr ⟨hj, by simp [ha]⟩
  have hmem : ∀ b : Bucket, (bucketOf todayDate j == b) = true →
      jobDataOf es ledger tasks j ∈ bucketList g b := by
    intro b hb
    rw [hg, bucketList_groupJobs]
    refine List.mem_map_of_mem (jobDataOf es ledger tasks) ?_
    refine List.mem_filter.mpr ⟨hmine, ?_⟩
    simp [hc, hb]
  constructor
  · exact hmem (bucketOf todayDate j) (by simp)
  · intro d hd hlt
    have hb : bucketOf todayDate j = Bucket.overdue := by
      unfold bucketOf
      rw [hd]
      have h1 : ¬(dateOf d = todayDate) := by omega
      have h2 : ¬(dateOf d > todayDate) := by omega
      simp [h1, h2]
    have := hmem Bucket.overdue (by rw [hb]; simp)
    simpa [bucketList] using this

theorem dashboard_includes_cancelled_witness :
    jobDataOf [] [] [] { cJobLate with status := JobStatus.CANCELLED }
      ∈ bucketList
        ⟨[], [], [jobDataOf [] [] [] { cJobLate with status := JobStatus.CANCELLED }], []⟩
        (bucketOf 5 { cJobLate with status := JobStatus.CANCELLED }) :=
  (dashboard_includes_cancelled cTech [{ cJobLate with status := JobStatus.CANCELLED }]
    [] [] [] 5
    ⟨[], [], [jobDataOf [] [] [] { cJobLate with status := JobStatus.CANCELLED }], []⟩
    ⟨1, 0, 1⟩ { cJobLate with status := JobStatus.CANCELLED }
    (by rfl) (by simp) (by rfl) (by rfl)).1

end JobOps
